import Mathlib

/-!
Verification development for the market-news-validator backend: a shallow
embedding of the job orchestration, worker supervision, progress broadcast
and persistence code (backend server, services/stockAnalysis.js, database
layer), with theorems settling the specification claims about it.
-/

set_option maxRecDepth 4000

namespace MarketNews

/-! ## JavaScript string primitives used by the backend -/

/-- Contiguous-substring test on character lists: `pat` occurs somewhere
inside `l`. -/
def isInfixOfChars (pat : List Char) : List Char → Bool
  | [] => pat.isEmpty
  | c :: rest => pat.isPrefixOf (c :: rest) || isInfixOfChars pat rest

/-- Model of the JavaScript expression `s.includes(pat)`: `pat` occurs as a
contiguous substring of `s`. -/
def jsIncludes (s pat : String) : Bool :=
  isInfixOfChars pat.toList s.toList

/-- Model of JavaScript `String.prototype.trim` (strip leading and trailing
whitespace). -/
def jsTrim (s : String) : String :=
  String.mk (((s.toList.dropWhile Char.isWhitespace).reverse.dropWhile
    Char.isWhitespace).reverse)

/-- Split a character list at newline characters. -/
def splitLinesChars : List Char → List (List Char)
  | [] => [[]]
  | c :: rest =>
      if c = '\n' then [] :: splitLinesChars rest
      else
        match splitLinesChars rest with
        | [] => [[c]]
        | l :: ls => (c :: l) :: ls

/-- Model of JavaScript `s.split('\n')`. -/
def splitLines (s : String) : List String :=
  (splitLinesChars s.toList).map String.mk

/-- Hex digit test used by `parseInt` with a `0x` prefix. -/
def isHexDigitJs (c : Char) : Bool :=
  c.isDigit || ('a' ≤ c && c ≤ 'f') || ('A' ≤ c && c ≤ 'F')

/-- Numeric value of a hex digit. -/
def hexDigitVal (c : Char) : Nat :=
  if c.isDigit then c.toNat - '0'.toNat
  else if 'a' ≤ c && c ≤ 'f' then c.toNat - 'a'.toNat + 10
  else c.toNat - 'A'.toNat + 10

/-- Fold a digit list into a natural number in the given base. -/
def digitsToNat (base : Nat) (ds : List Char) : Nat :=
  ds.foldl (fun acc c => acc * base + hexDigitVal c) 0

/-- Model of JavaScript `parseInt(s)` with no radix argument: skip leading
whitespace, read an optional sign, detect a `0x`/`0X` prefix (hexadecimal),
then read the longest digit prefix; `none` models the `NaN` result when no
digit is read. -/
def parseIntJS (s : String) : Option Int :=
  let cs := s.toList.dropWhile Char.isWhitespace
  let signAndRest : Int × List Char :=
    match cs with
    | '-' :: rest => (-1, rest)
    | '+' :: rest => (1, rest)
    | _ => (1, cs)
  let sign := signAndRest.1
  let baseAndRest : Nat × List Char :=
    match signAndRest.2 with
    | '0' :: 'x' :: rest => (16, rest)
    | '0' :: 'X' :: rest => (16, rest)
    | rest => (10, rest)
  let base := baseAndRest.1
  let isDig : Char → Bool := if base = 16 then isHexDigitJs else Char.isDigit
  let ds := baseAndRest.2.takeWhile isDig
  if ds.isEmpty then none
  else some (sign * (digitsToNat base ds : Int))

/-! ## Sentiment statistics (collectAndAnalyzeStock, services/stockAnalysis.js)

The success branch of `collectAndAnalyzeStock` walks `analyzed_news` and
buckets every item by `const score = parseFloat(news.score) || 0`.  A score
field is modelled as `Option ℚ`, with `none` for a field on which
`parseFloat` returns `NaN`; the `|| 0` coerces that (and `0` itself) to `0`,
so the subsequent `isNaN` guard never takes its `else` branch. -/

/-- Value of `parseFloat(news.score) || 0` for one news item. -/
def jsScoreOrZero (parsed : Option ℚ) : ℚ := parsed.getD 0

/-- Accumulator of the statistics loop in `collectAndAnalyzeStock`. -/
structure SentimentStats where
  positiveCount : Nat
  negativeCount : Nat
  neutralCount : Nat
  totalSentimentScore : ℚ
  validScoreCount : Nat
deriving DecidableEq, Repr

/-- Initial accumulator (all counters start at zero). -/
def initStats : SentimentStats := ⟨0, 0, 0, 0, 0⟩

/-- One iteration of the `analyzedNews.forEach` loop: add the score to the
running total, then bucket it (`> 0.1` positive, `< -0.1` negative,
otherwise neutral). -/
def statsStep (acc : SentimentStats) (parsed : Option ℚ) : SentimentStats :=
  let score := jsScoreOrZero parsed
  let acc1 : SentimentStats :=
    { acc with
        totalSentimentScore := acc.totalSentimentScore + score
        validScoreCount := acc.validScoreCount + 1 }
  if score > 1/10 then
    { acc1 with positiveCount := acc1.positiveCount + 1 }
  else if score < -(1/10) then
    { acc1 with negativeCount := acc1.negativeCount + 1 }
  else
    { acc1 with neutralCount := acc1.neutralCount + 1 }

/-- Statistics computed by `collectAndAnalyzeStock` over the parsed scores
of `analyzed_news`. -/
def computeSentimentStats (scores : List (Option ℚ)) : SentimentStats :=
  scores.foldl statsStep initStats

/-- The average sentiment score
`validScoreCount > 0 ? totalSentimentScore / validScoreCount : 0`. -/
def avgSentiment (st : SentimentStats) : ℚ :=
  if st.validScoreCount > 0 then st.totalSentimentScore / st.validScoreCount else 0

/-- The `overall_score` field of the returned analysis:
`Math.abs(avgSentiment) || 0` (the `|| 0` maps `0` to `0` and is the
identity otherwise). -/
def overallScore (st : SentimentStats) : ℚ := |avgSentiment st|

/-- An item counted in the positive bucket: its coerced score exceeds
0.1. -/
def isPositiveScore (o : Option ℚ) : Bool :=
  decide (jsScoreOrZero o > 1/10)

/-- An item counted in the negative bucket: not positive, and its coerced
score is below -0.1. -/
def isNegativeScore (o : Option ℚ) : Bool :=
  !(isPositiveScore o) && decide (jsScoreOrZero o < -(1/10))

/-- An item counted in the neutral bucket: neither positive nor
negative (this also covers unparseable scores, coerced to 0). -/
def isNeutralScore (o : Option ℚ) : Bool :=
  !(isPositiveScore o) && !(decide (jsScoreOrZero o < -(1/10)))

/-! ## Progress-line classifier (stderr handler of runPythonAnalyzer)

The stderr data handler of `runPythonAnalyzer` splits incoming text into
lines and, for each line, after a blank / minimum-length filter and a
leading `[hh:mm:ss]` timestamp strip, runs a fixed if/else-if chain of
keyword rules; the first matching rule determines the `sendProgress` event
(stage, status, message) that is emitted, if any. -/

/-- A `sendProgress(stepId, label, status, message)` event. -/
structure ProgEvt where
  stepId : String
  label : String
  status : String
  message : String
deriving DecidableEq, Repr

/-- Removal of a leading `[hh:mm:ss]` timestamp and the whitespace after it
(the `replace(/^\[\d\x7b2\x7d:\d\x7b2\x7d:\d\x7b2\x7d\]\s*/, '')` step). -/
def stripTimestamp (s : String) : String :=
  match s.toList with
  | '[' :: a :: b :: ':' :: c :: d :: ':' :: e :: f :: ']' :: rest =>
      if a.isDigit && b.isDigit && c.isDigit && d.isDigit && e.isDigit && f.isDigit then
        String.mk (rest.dropWhile Char.isWhitespace)
      else s
  | _ => s

/-- Guard of the news-collection rule. -/
def newsRuleGuard (l : String) : Bool :=
  (jsIncludes l "뉴스" || jsIncludes l "[뉴스]") &&
  (jsIncludes l "수집" || jsIncludes l "발견" || jsIncludes l "크롤링" ||
   jsIncludes l "API" || jsIncludes l "개 수집")

/-- Event produced by the news-collection rule once its guard matched. -/
def newsRuleEmit (l : String) : Option ProgEvt :=
  if jsIncludes l "완료" || jsIncludes l "[완료]" || jsIncludes l "수집 완료" then
    some ⟨"news-collection", "뉴스 수집", "success", "뉴스 수집이 완료되었습니다"⟩
  else if jsIncludes l "시작" || jsIncludes l "API 호출" then
    some ⟨"news-collection", "뉴스 수집", "loading", "뉴스를 수집하고 있습니다"⟩
  else none

/-- Guard of the economic-indicator rule. -/
def econRuleGuard (l : String) : Bool :=
  (jsIncludes l "경제지표" || jsIncludes l "[분석]") &&
  (jsIncludes l "ECOS" || jsIncludes l "금리" || jsIncludes l "환율" ||
   jsIncludes l "물가" || jsIncludes l "수집")

/-- Event produced by the economic-indicator rule. -/
def econRuleEmit (l : String) : Option ProgEvt :=
  if jsIncludes l "완료" || jsIncludes l "[완료]" then
    some ⟨"economic-data", "경제지표 수집", "success", "경제지표 수집이 완료되었습니다"⟩
  else if jsIncludes l "시작" || jsIncludes l "요청" then
    some ⟨"economic-data", "경제지표 수집", "loading", "경제지표를 수집하고 있습니다"⟩
  else none

/-- Guard of the policy-analysis rule. -/
def policyRuleGuard (l : String) : Bool :=
  jsIncludes l "정책" || jsIncludes l "정치" || jsIncludes l "정부"

/-- Event produced by the policy-analysis rule. -/
def policyRuleEmit (l : String) : Option ProgEvt :=
  if jsIncludes l "완료" || jsIncludes l "[완료]" then
    some ⟨"policy-analysis", "정책 분석", "success", "정책 분석이 완료되었습니다"⟩
  else if jsIncludes l "시작" || jsIncludes l "분석 중" then
    some ⟨"policy-analysis", "정책 분석", "loading", "정책 영향을 분석하고 있습니다"⟩
  else none

/-- Guard of the sentiment-analysis rule. -/
def sentimentRuleGuard (l : String) : Bool :=
  jsIncludes l "감정 분석" || jsIncludes l "AI" || jsIncludes l "GPT" ||
  jsIncludes l "OpenAI" || jsIncludes l "[AI]" || jsIncludes l "분석 완료" ||
  jsIncludes l "API 호출" || jsIncludes l "캐시"

/-- Event produced by the sentiment-analysis rule. -/
def sentimentRuleEmit (l : String) : Option ProgEvt :=
  if jsIncludes l "감정 분석 완료" || jsIncludes l "분석 완료" || jsIncludes l "[완료]" then
    some ⟨"sentiment-analysis", "감정 분석", "success", "감정 분석이 완료되었습니다"⟩
  else if jsIncludes l "시작" || jsIncludes l "API 호출" then
    some ⟨"sentiment-analysis", "감정 분석", "loading", "AI 감정 분석을 진행하고 있습니다"⟩
  else none

/-- Guard of the report-generation rule. -/
def reportRuleGuard (l : String) : Bool :=
  jsIncludes l "리포트" || jsIncludes l "보고서" || jsIncludes l "생성" ||
  jsIncludes l "전망" || jsIncludes l "모든 분석이 완료" ||
  jsIncludes l "Python 분석기 실행 완료"

/-- Event produced by the report-generation rule. -/
def reportRuleEmit (l : String) : Option ProgEvt :=
  if jsIncludes l "Python 분석기 실행 완료" || jsIncludes l "모든 분석이 완료" ||
     jsIncludes l "[완료]" then
    some ⟨"report-generation", "리포트 생성", "success", "최종 리포트 생성이 완료되었습니다"⟩
  else if jsIncludes l "시작" || jsIncludes l "생성 중" then
    some ⟨"report-generation", "리포트 생성", "loading", "최종 리포트를 생성하고 있습니다"⟩
  else none

/-- The if/else-if rule chain of the stderr handler, applied to the cleaned
line: the first rule whose guard matches determines the emitted event. -/
def classifyCleanLine (l : String) : Option ProgEvt :=
  if newsRuleGuard l then newsRuleEmit l
  else if econRuleGuard l then econRuleEmit l
  else if policyRuleGuard l then policyRuleEmit l
  else if sentimentRuleGuard l then sentimentRuleEmit l
  else if reportRuleGuard l then reportRuleEmit l
  else none

/-- Full per-line processing of the stderr handler: trim, drop blank and
sub-minimum-length (fewer than 5 characters) lines, strip the timestamp,
then classify. -/
def handleStderrLine (line : String) : Option ProgEvt :=
  let trimmedLine := jsTrim line
  if trimmedLine = "" || trimmedLine.length < 5 then none
  else classifyCleanLine (stripTimestamp trimmedLine)

/-- An entry of the ordered rule table, as the specification describes the
classifier: a guard plus the event emitted when the guard is the first to
match. -/
structure StageRule where
  guard : String → Bool
  emit : String → Option ProgEvt

/-- The classifier's rule table in priority order (specification view). -/
def stageRuleTable : List StageRule :=
  [⟨newsRuleGuard, newsRuleEmit⟩,
   ⟨econRuleGuard, econRuleEmit⟩,
   ⟨policyRuleGuard, policyRuleEmit⟩,
   ⟨sentimentRuleGuard, sentimentRuleEmit⟩,
   ⟨reportRuleGuard, reportRuleEmit⟩]

/-- Specification-style classifier: evaluate the ordered rule table and let
the first matching rule determine the produced event. -/
def classifyByTable (l : String) : Option ProgEvt :=
  match stageRuleTable.find? (fun r => r.guard l) with
  | some r => r.emit l
  | none => none

/-! ## Result-payload extraction (close handler of runPythonAnalyzer)

On exit code 0 the close handler walks `stdout.split('\n')` from the first
line: for each line it trims it, checks that it starts with an opening
brace and ends with a closing brace, attempts `JSON.parse`, and breaks on
the first successful parse.  `JSON.parse` is an external runtime function
and is modelled as an uninterpreted `parse : String → Option α` argument
(`none` = the parse throws). -/

/-- Whether a trimmed line is shaped like a JSON object
(`startsWith('\x7b') && endsWith('\x7d')`). -/
def braceShaped (t : String) : Bool :=
  (t.toList.headD ' ' == '\x7b') && (t.toList.getLastD ' ' == '\x7d')

/-- The scanning loop of the close handler over the list of stdout lines:
first brace-shaped line whose parse succeeds wins. -/
def scanJsonLines (parse : String → Option α) : List String → Option α
  | [] => none
  | line :: rest =>
      let trimmedLine := jsTrim line
      if braceShaped trimmedLine then
        match parse trimmedLine with
        | some j => some j
        | none => scanJsonLines parse rest
      else scanJsonLines parse rest

/-- Payload extraction of the close handler on the whole captured stdout. -/
def extractJsonResult (parse : String → Option α) (stdout : String) : Option α :=
  scanJsonLines parse (splitLines stdout)

/-- Specification-style extraction in the words of §4.2 of the spec: the
result payload is the parse of the LAST well-formed structured payload line
of the captured standard output. -/
def lastJsonResultSpec (parse : String → Option α) (stdout : String) : Option α :=
  (splitLines stdout).reverse.findSome? fun line =>
    let t := jsTrim line
    if braceShaped t then parse t else none

/-- Specification-style extraction with first-match semantics (what the
loop actually computes). -/
def firstJsonResultSpec (parse : String → Option α) (stdout : String) : Option α :=
  (splitLines stdout).findSome? fun line =>
    let t := jsTrim line
    if braceShaped t then parse t else none

/-! ## Worker supervision (runPythonAnalyzer promise)

`runPythonAnalyzer` wraps the spawned process in one `Promise` and installs
four callbacks that may call `resolve`:
the 300-second timeout registered first (guarded by `processFinished`,
cleared by the close handler), the `close` handler (guarded by
`processFinished`), the `error` handler (unguarded and not setting
`processFinished`), and a second 300-second timeout registered last
(unguarded and never cleared).  Node's event loop runs the callbacks in
some linear order, and JavaScript promise semantics keeps the value of the
first `resolve` call.  A run is modelled as the list of callback firings in
event-loop order. -/

/-- Resolution value of the supervisor promise.  `ok (some j)` models
`resolve(\x7bsuccess: true, data: jsonResult\x7d)`; `ok none` models the
default no-JSON data object; `err msg isTimeout` models a
`success: false` resolution, with `isTimeout` the presence of the
`timeout: true` field. -/
inductive WorkerRes (α : Type) where
  | ok (payload : Option α)
  | err (msg : String) (isTimeout : Bool)
deriving DecidableEq, Repr

/-- JavaScript promise semantics: only the first `resolve` call sets the
value; later calls are ignored. -/
def resolveOnce (r : Option (WorkerRes α)) (v : WorkerRes α) : Option (WorkerRes α) :=
  match r with
  | some w => some w
  | none => some v

/-- The `sendProgress` calls issued by the close handler on exit code 0:
three catch-up stage completions and the terminal complete event (whose
message depends on whether a JSON payload was found). -/
def closeSuccessEvents (hasJson : Bool) : List ProgEvt :=
  [⟨"economic-data", "경제 데이터 수집", "success", "경제 지표 데이터 수집이 완료되었습니다"⟩,
   ⟨"policy-analysis", "정책 분석", "success", "정책 분석이 완료되었습니다"⟩,
   ⟨"report-generation", "리포트 생성", "success", "최종 리포트 생성이 완료되었습니다"⟩,
   if hasJson then
     ⟨"complete", "분석 완료", "success", "모든 분석이 성공적으로 완료되었습니다"⟩
   else
     ⟨"complete", "분석 완료", "success", "분석이 완료되었습니다 (기본 결과)"⟩]

/-- Mutable state of one `runPythonAnalyzer` run: the `processFinished`
flag, whether `clearTimeout(timeoutId)` has run, the promise resolution,
the signals sent to the process so far, and the progress events emitted by
the close handler. -/
structure SupState (α : Type) where
  processFinished : Bool
  t1Cleared : Bool
  resolution : Option (WorkerRes α)
  kills : List String
  closeEmits : List ProgEvt
deriving Repr

/-- Initial supervisor state. -/
def initSup : SupState α := ⟨false, false, none, [], []⟩

/-- A callback firing processed by the event loop. -/
inductive SupEvent where
  | closeEvt (code : Int)
  | errorEvt (msg : String)
  | firstTimeout
  | secondTimeout
deriving DecidableEq, Repr

/-- Message of the timeout resolutions. -/
def timeoutMsg : String := "Python 분석기 타임아웃 (300초)"

/-- Resolution produced by the close handler for a given exit code and the
captured stdout. -/
def closeResolution (parse : String → Option α) (stdout : String) (code : Int) : WorkerRes α :=
  if code = 0 then .ok (extractJsonResult parse stdout)
  else .err ("Python 실행 실패 (code: " ++ toString code ++ ")") false

/-- One callback firing.  The first timeout checks `processFinished`, sends
SIGTERM, sets the flag and resolves with the timeout error; the close
handler checks `processFinished`, sets it, clears the first timeout and
resolves from the exit code; the error handler resolves unconditionally;
the second timeout kills and resolves unconditionally (its `resolve` is a
no-op whenever the promise is already settled). -/
def supStep (parse : String → Option α) (stdout : String)
    (st : SupState α) (e : SupEvent) : SupState α :=
  match e with
  | .firstTimeout =>
      if st.t1Cleared then st
      else if !st.processFinished then
        { st with
            kills := st.kills ++ ["SIGTERM"]
            processFinished := true
            resolution := resolveOnce st.resolution (.err timeoutMsg true) }
      else st
  | .closeEvt code =>
      if st.processFinished then st
      else
        { st with
            processFinished := true
            t1Cleared := true
            resolution := resolveOnce st.resolution (closeResolution parse stdout code)
            closeEmits :=
              if code = 0 then
                st.closeEmits ++ closeSuccessEvents (extractJsonResult parse stdout).isSome
              else st.closeEmits }
  | .errorEvt msg =>
      { st with resolution := resolveOnce st.resolution (.err ("프로세스 오류: " ++ msg) false) }
  | .secondTimeout =>
      { st with
          kills := st.kills ++ ["SIGTERM"]
          resolution := resolveOnce st.resolution (.err timeoutMsg false) }

/-- A whole supervisor run: fold the callback firings over the state. -/
def runSup (parse : String → Option α) (stdout : String)
    (events : List SupEvent) (st : SupState α) : SupState α :=
  events.foldl (supStep parse stdout) st

/-! ## Orchestration trace (POST /api/analysis handler)

The handler is sequential: validation, request-record creation, status
update to processing, the analysis call, then either the save/complete
branch or the failure branch.  Its observable behaviour is modelled as the
ordered list of effects it performs: `sendProgress` emissions, database
writes, and the HTTP response. -/

/-- One observable effect of the POST handler and its callees. -/
inductive Effect where
  | progress (e : ProgEvt)
  | dbAddLog (level component : String)
  | dbStatus (status : String) (hasCompletedAt : Bool)
  | dbSave
  | dbCreate
  | respond (code : Nat)
deriving DecidableEq, Repr

/-- Parsed body of a POST /api/analysis request.  `daysBack` is kept as the
string handed to `parseInt`; an absent field defaults to 7. -/
structure AnalysisBody where
  stockName : Option String
  daysBack : Option String
  clientRequestId : Option String
deriving DecidableEq, Repr

/-- The progress events a full `runPythonAnalyzer` run emits: the initial
loading event, the classified stderr lines, then whatever the close handler
emitted (`closeEmits` of the final supervisor state). -/
def runPythonAnalyzerEvents (stderrLines : List String) (finalEmits : List ProgEvt) :
    List ProgEvt :=
  ⟨"python-analyzer", "Python 분석기 실행", "loading", "Python 분석기를 시작하고 있습니다"⟩
    :: (stderrLines.filterMap handleStderrLine ++ finalEmits)

/-- Events and outcome of `collectAndAnalyzeStock`: on a successful python
result it reports python-analyzer success and returns normally; on failure
it reports the error twice (once before the `throw`, once in the `catch`
that rethrows) and propagates the error message. -/
def collectAndAnalyzeStockEvents (pyEvents : List ProgEvt) (res : WorkerRes α) :
    List ProgEvt × Option String :=
  match res with
  | .ok _ =>
      (pyEvents ++ [⟨"python-analyzer", "Python 분석기 실행", "success", "Python 분석 완료"⟩],
       none)
  | .err msg _ =>
      (pyEvents ++
        [⟨"python-analyzer", "Python 분석기 실행", "error", "Python 분석 실패: " ++ msg⟩,
         ⟨"python-analyzer", "Python 분석기 실행", "error",
          "분석 중 오류 발생: Python 분석 실패: " ++ msg⟩],
       some ("Python 분석 실패: " ++ msg))

/-- Events and outcome of `runJavaScriptAnalysis`: news-collection loading
before the call, news-collection success after it, or the catch branch
reporting the news-collection error and returning `success: false`. -/
def runJavaScriptAnalysisEvents (pyEvents : List ProgEvt) (res : WorkerRes α) :
    List ProgEvt × Option String :=
  let inner := collectAndAnalyzeStockEvents pyEvents res
  match inner.2 with
  | none =>
      (⟨"news-collection", "뉴스 수집", "loading", "관련 뉴스를 수집하고 있습니다"⟩
         :: inner.1
         ++ [⟨"news-collection", "뉴스 수집", "success", "뉴스를 성공적으로 수집했습니다."⟩],
       none)
  | some msg =>
      (⟨"news-collection", "뉴스 수집", "loading", "관련 뉴스를 수집하고 있습니다"⟩
         :: inner.1
         ++ [⟨"news-collection", "뉴스 수집", "error", "뉴스 수집 실패: " ++ msg⟩],
       some msg)

/-- Whether `daysBack` fails the `isNaN(days) || days < 1 || days > 90`
validation. -/
def daysBackInvalid (daysBack : Option String) : Bool :=
  match parseIntJS (daysBack.getD "7") with
  | none => true
  | some d => d < 1 || d > 90

/-- The full effect trace of one POST /api/analysis request, parameterised
by the worker resolution `res` and the progress events `pyEvents` the
worker run emitted (both produced by the supervisor model above). -/
def postAnalysisHandler (body : AnalysisBody) (pyEvents : List ProgEvt)
    (res : WorkerRes α) : List Effect :=
  match body.stockName with
  | none => [.respond 400]
  | some stock =>
    if stock = "" then [.respond 400]
    else if daysBackInvalid body.daysBack then [.respond 400]
    else
      let js := runJavaScriptAnalysisEvents pyEvents res
      Effect.dbCreate ::
      .progress ⟨"init", "분석 요청 초기화", "success",
                 stock ++ " 분석 요청이 성공적으로 초기화되었습니다"⟩ ::
      .dbAddLog "INFO" "API" ::
      .dbStatus "processing" false ::
      .progress ⟨"processing", "분석 처리 시작", "success", "분석 엔진 초기화가 완료되었습니다"⟩ ::
      (js.1.map Effect.progress ++
        match js.2 with
        | none =>
            [.progress ⟨"save", "결과 저장", "loading", "분석 결과를 데이터베이스에 저장하고 있습니다"⟩,
             .dbSave,
             .progress ⟨"save", "결과 저장", "success", "분석 결과가 성공적으로 저장되었습니다"⟩,
             .dbStatus "completed" true,
             .progress ⟨"complete", "분석 완료", "success", "모든 분석이 성공적으로 완료되었습니다"⟩,
             .dbAddLog "INFO" "API",
             .respond 200]
        | some errMsg =>
            [.progress ⟨"analysis", "데이터 수집 및 분석", "error", "분석 실패: " ++ errMsg⟩,
             .dbStatus "failed" false,
             .dbAddLog "ERROR" "JAVASCRIPT",
             .respond 500])

/-- A concrete well-formed request body (a stock name and a 7-day
window), used to instantiate whole-run statements. -/
def validBody : AnalysisBody := ⟨some "삼성전자", some "7", none⟩

/-! ## Persisted job record (database layer, updateAnalysisStatus)

`updateAnalysisStatus(requestId, status, completedAt = null)` issues a
`$set` with the new status (and `completed_at` only when the third argument
is passed); `createAnalysisRequest` inserts the record with status
`pending` and no `completed_at`. -/

/-- The persisted fields of one analysis request relevant to the lifecycle
claims: the status string and whether `completed_at` is present. -/
structure JobRecord where
  status : String
  completedAt : Bool
deriving DecidableEq, Repr

/-- A freshly inserted analysis request. -/
def freshJobRecord : JobRecord := ⟨"pending", false⟩

/-- Model of `Database.updateAnalysisStatus`: always overwrite the status,
set `completed_at` only when a date argument was passed (the `$set` never
removes it). -/
def updateAnalysisStatus (j : JobRecord) (status : String) (hasCompletedAt : Bool) :
    JobRecord :=
  { status := status, completedAt := if hasCompletedAt then true else j.completedAt }

/-- Replay the database status updates of an effect trace over a job
record. -/
def applyStatusEffects (j : JobRecord) (trace : List Effect) : JobRecord :=
  trace.foldl
    (fun j e =>
      match e with
      | .dbStatus s b => updateAnalysisStatus j s b
      | _ => j) j

/-- The (status, hasCompletedAt) updates an effect trace issues, in
order. -/
def statusUpdates (trace : List Effect) : List (String × Bool) :=
  trace.filterMap
    (fun e =>
      match e with
      | .dbStatus s b => some (s, b)
      | _ => none)

/-- Rank of a status in the lifecycle order
pending → processing → completed/failed. -/
def statusRank (s : String) : Nat :=
  if s = "pending" then 0 else if s = "processing" then 1 else 2

/-! ## Request store (database layer, createAnalysisRequestWithId) -/

/-- Fields of a stored analysis request row. -/
structure AnalysisRequestRec where
  stockName : String
  startDate : String
  endDate : String
  status : String
deriving DecidableEq, Repr

/-- The analysis_requests collection keyed by the string form of `_id`, in
insertion order. -/
abbrev ReqStore := List (String × AnalysisRequestRec)

/-- Model of `ObjectId.isValid` on the 24-character hex string form used by
the backend. -/
def isValidObjectId (s : String) : Bool :=
  s.length = 24 && s.toList.all isHexDigitJs

/-- Model of `Database.createAnalysisRequestWithId`: reject an invalid id,
catch the duplicate-key error (code 11000) of an existing id and return the
id with the store unchanged, otherwise insert a fresh pending record under
the given id. -/
def createAnalysisRequestWithId (store : ReqStore)
    (requestId stockName startDate endDate : String) :
    Except String (String × ReqStore) :=
  if !isValidObjectId requestId then .error "Invalid requestId format"
  else if store.any (fun p => p.1 == requestId) then .ok (requestId, store)
  else .ok (requestId, store ++ [(requestId, ⟨stockName, startDate, endDate, "pending"⟩)])

/-- Model of the requestId resolution in the POST handler: try the
client-provided id; on any creation error fall back to a freshly generated
id (`createAnalysisRequest`). -/
def resolveClientRequestId (store : ReqStore)
    (clientRequestId freshId stockName startDate endDate : String) :
    String × ReqStore :=
  match createAnalysisRequestWithId store clientRequestId stockName startDate endDate with
  | .ok idStore => idStore
  | .error _ =>
      (freshId, store ++ [(freshId, ⟨stockName, startDate, endDate, "pending"⟩)])

/-! ## Socket.io room broadcast (backend server)

The connection handler installs `join-analysis` / `leave-analysis` room
membership handlers, and `sendProgress` emits a `progress` message to the
`analysis-<requestId>` room.  There is no event log and no replay: a
broadcast reaches exactly the sockets that are members of the room at emit
time.  The progress payload is carried as an opaque serialized string. -/

/-- A message delivered to one socket. -/
inductive SockMsg where
  | joinedAck (requestId : String)
  | leftAck (requestId : String)
  | progressMsg (requestId payload : String)
deriving DecidableEq, Repr

/-- An action processed by the server: a join-analysis or leave-analysis
message from a socket, or a `sendProgress` broadcast. -/
inductive SockAction where
  | joinAnalysis (sock requestId : String)
  | leaveAnalysis (sock requestId : String)
  | emitProgress (requestId payload : String)
deriving DecidableEq, Repr

/-- Server-side broadcast state: room membership pairs in join order, plus
the messages delivered to sockets so far, in delivery order. -/
structure IoState where
  rooms : List (String × String)
  delivered : List (String × SockMsg)
deriving DecidableEq, Repr

/-- The room a request's progress is sent to (`analysis-<requestId>`). -/
def analysisRoom (requestId : String) : String := "analysis-" ++ requestId

/-- Sockets currently joined to a room, in join order. -/
def roomMembers (st : IoState) (room : String) : List String :=
  (st.rooms.filter (fun p => p.1 == room)).map Prod.snd

/-- One server action.  `join-analysis` with a truthy requestId adds the
socket to the room (idempotently, as `socket.join` is) and sends only a
`joined-analysis` acknowledgment; `leave-analysis` removes it and sends a
`left-analysis` acknowledgment; `sendProgress` delivers the payload to the
sockets in the room at this moment, whether or not the room is empty. -/
def ioStep (st : IoState) (a : SockAction) : IoState :=
  match a with
  | .joinAnalysis sock requestId =>
      if requestId = "" then st
      else
        { rooms :=
            if st.rooms.any (fun p => p.1 == analysisRoom requestId && p.2 == sock) then
              st.rooms
            else st.rooms ++ [(analysisRoom requestId, sock)],
          delivered := st.delivered ++ [(sock, .joinedAck requestId)] }
  | .leaveAnalysis sock requestId =>
      if requestId = "" then st
      else
        { rooms := st.rooms.filter
            (fun p => !(p.1 == analysisRoom requestId && p.2 == sock)),
          delivered := st.delivered ++ [(sock, .leftAck requestId)] }
  | .emitProgress requestId payload =>
      { st with
          delivered := st.delivered ++
            (roomMembers st (analysisRoom requestId)).map
              (fun sock => (sock, .progressMsg requestId payload)) }

/-- Run a list of server actions. -/
def runIo (actions : List SockAction) (st : IoState) : IoState :=
  actions.foldl ioStep st

/-- Server start state: no rooms, nothing delivered. -/
def initIo : IoState := ⟨[], []⟩

/-! ## Concrete runs used as counterexample inputs -/

/-- A successful run of the valid request: worker exits 0 with a payload;
the close handler emitted its catch-up and terminal events. -/
def successRunTrace : List Effect :=
  postAnalysisHandler validBody
    (runPythonAnalyzerEvents [] (closeSuccessEvents true))
    (WorkerRes.ok (some 1))

/-- A run of the valid request in which the worker timed out. -/
def timeoutRunTrace : List Effect :=
  postAnalysisHandler validBody (runPythonAnalyzerEvents [] [])
    (WorkerRes.err timeoutMsg true : WorkerRes Nat)

/-- Supervisor run for a worker that exits 0 with stdout containing no
parseable payload line. -/
def noJsonSup : SupState Nat :=
  runSup (fun _ => none) "분석 완료 보고" [SupEvent.closeEvt 0] initSup

/-- Coordinator run fed by the no-payload worker resolution. -/
def noJsonRunTrace : List Effect :=
  postAnalysisHandler validBody
    (runPythonAnalyzerEvents [] noJsonSup.closeEmits)
    (WorkerRes.ok (none : Option Nat))

/-- The terminal complete/success progress event of a payload-carrying
run. -/
def doneSuccessEvt : ProgEvt :=
  ⟨"complete", "분석 완료", "success", "모든 분석이 성공적으로 완료되었습니다"⟩

/-- A broadcast sent to a job's room before any observer joined, followed
by a late join. -/
def lostEventTrace : List SockAction :=
  [SockAction.emitProgress "abc123" "collection-done",
   SockAction.joinAnalysis "sockA" "abc123"]

/-! ## Helper lemmas -/

theorem statsStep_positive (acc : SentimentStats) (o : Option ℚ) :
    (statsStep acc o).positiveCount
      = acc.positiveCount + (if isPositiveScore o then 1 else 0) := by
  unfold statsStep isPositiveScore
  by_cases h1 : jsScoreOrZero o > 1/10
  · rw [if_pos h1, decide_eq_true h1]; simp
  · rw [if_neg h1, decide_eq_false h1]
    by_cases h2 : jsScoreOrZero o < -(1/10)
    · rw [if_pos h2]; simp
    · rw [if_neg h2]; simp

theorem statsStep_negative (acc : SentimentStats) (o : Option ℚ) :
    (statsStep acc o).negativeCount
      = acc.negativeCount + (if isNegativeScore o then 1 else 0) := by
  unfold statsStep isNegativeScore isPositiveScore
  by_cases h1 : jsScoreOrZero o > 1/10
  · rw [if_pos h1, decide_eq_true h1]; simp
  · rw [if_neg h1, decide_eq_false h1]
    by_cases h2 : jsScoreOrZero o < -(1/10)
    · rw [if_pos h2, decide_eq_true h2]; simp
    · rw [if_neg h2, decide_eq_false h2]; simp

theorem statsStep_neutral (acc : SentimentStats) (o : Option ℚ) :
    (statsStep acc o).neutralCount
      = acc.neutralCount + (if isNeutralScore o then 1 else 0) := by
  unfold statsStep isNeutralScore isPositiveScore
  by_cases h1 : jsScoreOrZero o > 1/10
  · rw [if_pos h1, decide_eq_true h1]; simp
  · rw [if_neg h1, decide_eq_false h1]
    by_cases h2 : jsScoreOrZero o < -(1/10)
    · rw [if_pos h2, decide_eq_true h2]; simp
    · rw [if_neg h2, decide_eq_false h2]; simp

theorem foldl_statsStep_counts (scores : List (Option ℚ)) :
    ∀ acc : SentimentStats,
      ((scores.foldl statsStep acc).positiveCount
        = acc.positiveCount + scores.countP isPositiveScore) ∧
      ((scores.foldl statsStep acc).negativeCount
        = acc.negativeCount + scores.countP isNegativeScore) ∧
      ((scores.foldl statsStep acc).neutralCount
        = acc.neutralCount + scores.countP isNeutralScore) := by
  induction scores with
  | nil => intro acc; simp
  | cons o rest ih =>
      intro acc
      obtain ⟨ihp, ihn, ihu⟩ := ih (statsStep acc o)
      refine ⟨?_, ?_, ?_⟩ <;>
        simp only [List.foldl_cons, List.countP_cons, ihp, ihn, ihu,
          statsStep_positive, statsStep_negative, statsStep_neutral] <;>
        omega

theorem bucket_partition_pointwise (o : Option ℚ) :
    (if isPositiveScore o then 1 else 0) + (if isNegativeScore o then 1 else 0)
      + (if isNeutralScore o then 1 else 0) = 1 := by
  unfold isNegativeScore isNeutralScore
  cases hp : isPositiveScore o <;>
    cases hn : decide (jsScoreOrZero o < -(1/10)) <;> simp [hp, hn]

theorem countP_buckets_length (scores : List (Option ℚ)) :
    scores.countP isPositiveScore + scores.countP isNegativeScore
      + scores.countP isNeutralScore = scores.length := by
  induction scores with
  | nil => simp
  | cons o rest ih =>
      simp only [List.countP_cons, List.length_cons]
      have := bucket_partition_pointwise o
      omega

/-- C9: every analyzed item falls in exactly one bucket, so the bucket
counts sum to the number of analyzed items, and the overall score is
non-negative. -/
theorem collectAndAnalyzeStock_bucket_partition (scores : List (Option ℚ)) :
    (computeSentimentStats scores).positiveCount = scores.countP isPositiveScore ∧
    (computeSentimentStats scores).negativeCount = scores.countP isNegativeScore ∧
    (computeSentimentStats scores).neutralCount = scores.countP isNeutralScore ∧
    (computeSentimentStats scores).positiveCount
      + (computeSentimentStats scores).negativeCount
      + (computeSentimentStats scores).neutralCount = scores.length ∧
    0 ≤ overallScore (computeSentimentStats scores) := by
  obtain ⟨hp, hn, hu⟩ := foldl_statsStep_counts scores initStats
  have hp0 : (computeSentimentStats scores).positiveCount = scores.countP isPositiveScore := by
    simpa [computeSentimentStats, initStats] using hp
  have hn0 : (computeSentimentStats scores).negativeCount = scores.countP isNegativeScore := by
    simpa [computeSentimentStats, initStats] using hn
  have hu0 : (computeSentimentStats scores).neutralCount = scores.countP isNeutralScore := by
    simpa [computeSentimentStats, initStats] using hu
  refine ⟨hp0, hn0, hu0, ?_, abs_nonneg _⟩
  rw [hp0, hn0, hu0]
  exact countP_buckets_length scores

/-- C10: a POST /api/analysis request whose stockName is missing or whose
daysBack does not parse (with the handler's parseInt) to an integer in
[1, 90] is answered with HTTP 400 and performs no database effect: no
request record is created and no analysis is started. -/
theorem postAnalysis_validation_rejects (body : AnalysisBody) (pyEvents : List ProgEvt)
    (res : WorkerRes Nat)
    (h : body.stockName = none ∨ daysBackInvalid body.daysBack = true) :
    postAnalysisHandler body pyEvents res = [Effect.respond 400] ∧
    Effect.dbCreate ∉ postAnalysisHandler body pyEvents res ∧
    Effect.dbSave ∉ postAnalysisHandler body pyEvents res := by
  have htrace : postAnalysisHandler body pyEvents res = [Effect.respond 400] := by
    rcases h with h | h
    · simp [postAnalysisHandler, h]
    · cases hs : body.stockName with
      | none => simp [postAnalysisHandler, hs]
      | some stock =>
          by_cases he : stock = "" <;> simp [postAnalysisHandler, hs, he, h]
  refine ⟨htrace, ?_, ?_⟩ <;> rw [htrace] <;> simp

/-- Witness for C10 at a concrete request: daysBack "91" is out of range,
so the handler answers 400 and touches no state. -/
theorem postAnalysis_validation_rejects_witness :
    postAnalysisHandler ⟨some "삼성전자", some "91", none⟩ [] (WorkerRes.ok (none : Option Nat))
        = [Effect.respond 400] ∧
    Effect.dbCreate ∉ postAnalysisHandler ⟨some "삼성전자", some "91", none⟩ []
        (WorkerRes.ok (none : Option Nat)) ∧
    Effect.dbSave ∉ postAnalysisHandler ⟨some "삼성전자", some "91", none⟩ []
        (WorkerRes.ok (none : Option Nat)) :=
  postAnalysis_validation_rejects _ _ _ (Or.inr (by decide))

/-- C7: submitting a caller-supplied requestId that already exists in the
store is idempotent: `createAnalysisRequestWithId` swallows the
duplicate-key error and returns the existing id with the store unchanged,
and the endpoint's requestId resolution keeps the client id without
falling back to a generated one. -/
theorem createAnalysisRequestWithId_idempotent (store : ReqStore)
    (requestId freshId stockName startDate endDate : String)
    (hvalid : isValidObjectId requestId = true)
    (hexists : store.any (fun p => p.1 == requestId) = true) :
    createAnalysisRequestWithId store requestId stockName startDate endDate
      = Except.ok (requestId, store) ∧
    resolveClientRequestId store requestId freshId stockName startDate endDate
      = (requestId, store) := by
  have hcreate : createAnalysisRequestWithId store requestId stockName startDate endDate
      = Except.ok (requestId, store) := by
    simp [createAnalysisRequestWithId, hvalid, hexists]
  exact ⟨hcreate, by simp [resolveClientRequestId, hcreate]⟩

/-- Witness for C7: a store already holding the 24-hex id returns it
unchanged. -/
theorem createAnalysisRequestWithId_idempotent_witness :
    createAnalysisRequestWithId
        [("0123456789abcdef01234567", ⟨"삼성전자", "2024-01-01", "2024-01-08", "pending"⟩)]
        "0123456789abcdef01234567" "삼성전자" "2024-01-01" "2024-01-08"
      = Except.ok ("0123456789abcdef01234567",
          [("0123456789abcdef01234567", ⟨"삼성전자", "2024-01-01", "2024-01-08", "pending"⟩)]) ∧
    resolveClientRequestId
        [("0123456789abcdef01234567", ⟨"삼성전자", "2024-01-01", "2024-01-08", "pending"⟩)]
        "0123456789abcdef01234567" "ffffffffffffffffffffffff" "삼성전자" "2024-01-01" "2024-01-08"
      = ("0123456789abcdef01234567",
          [("0123456789abcdef01234567", ⟨"삼성전자", "2024-01-01", "2024-01-08", "pending"⟩)]) :=
  createAnalysisRequestWithId_idempotent _ _ _ _ _ _ (by decide) (by decide)

theorem scanJsonLines_eq_findSome (parse : String → Option α) :
    ∀ lines : List String,
      scanJsonLines parse lines
        = lines.findSome? (fun line =>
            let t := jsTrim line
            if braceShaped t then parse t else none) := by
  intro lines
  induction lines with
  | nil => rfl
  | cons l rest ih =>
      simp only [scanJsonLines, List.findSome?]
      cases hb : braceShaped (jsTrim l)
      · simpa [hb] using ih
      · cases hp : parse (jsTrim l) <;> simp [hb, hp, ih]

/-- C5 amended: on normal exit the close handler resolves with the parse of
the FIRST well-formed (brace-shaped, parseable) line of the captured
stdout, not the last. -/
theorem extractJsonResult_is_first (parse : String → Option α) (stdout : String) :
    extractJsonResult parse stdout = firstJsonResultSpec parse stdout := by
  unfold extractJsonResult firstJsonResultSpec
  exact scanJsonLines_eq_findSome parse (splitLines stdout)

/-- A parse oracle (a stand-in for JSON.parse) giving distinct values to
the two payload lines of `twoPayloadStdout`. -/
def jsonParseV1V2 : String → Option Nat := fun s =>
  if s = "\x7b\"v\": 1\x7d" then some 1
  else if s = "\x7b\"v\": 2\x7d" then some 2
  else none

/-- A captured stdout that contains two well-formed payload lines. -/
def twoPayloadStdout : String := "\x7b\"v\": 1\x7d\n\x7b\"v\": 2\x7d"

/-- C5 counterexample: with two well-formed payload lines in stdout, the
extraction loop returns the parse of the first line, not of the last as
the claim states. -/
theorem extractJsonResult_not_last :
    extractJsonResult jsonParseV1V2 twoPayloadStdout = some 1 ∧
    lastJsonResultSpec jsonParseV1V2 twoPayloadStdout = some 2 ∧
    extractJsonResult jsonParseV1V2 twoPayloadStdout
      ≠ lastJsonResultSpec jsonParseV1V2 twoPayloadStdout := by
  refine ⟨?_, ?_, ?_⟩ <;> decide

theorem classifyCleanLine_eq_table (l : String) :
    classifyCleanLine l = classifyByTable l := by
  unfold classifyCleanLine classifyByTable stageRuleTable
  cases h1 : newsRuleGuard l <;> cases h2 : econRuleGuard l <;>
    cases h3 : policyRuleGuard l <;> cases h4 : sentimentRuleGuard l <;>
    cases h5 : reportRuleGuard l <;>
    simp [List.find?, h1, h2, h3, h4, h5]

/-- C8: the stderr-line classifier discards blank and sub-minimum-length
lines without producing an event, and otherwise the produced event is
determined by the first matching rule of the fixed, ordered per-stage rule
table. -/
theorem classifier_first_match (line : String) :
    (jsTrim line = "" ∨ (jsTrim line).length < 5 → handleStderrLine line = none) ∧
    (¬(jsTrim line = "" ∨ (jsTrim line).length < 5) →
        handleStderrLine line = classifyByTable (stripTimestamp (jsTrim line))) ∧
    (∀ l : String, classifyCleanLine l = classifyByTable l) := by
  refine ⟨?_, ?_, fun l => classifyCleanLine_eq_table l⟩
  · intro h
    unfold handleStderrLine
    rcases h with h | h <;> simp [h]
  · intro h
    push_neg at h
    unfold handleStderrLine
    simp [h.1, h.2, classifyCleanLine_eq_table]

/-- Witness for C8: a two-character line is discarded, and a matching line
is classified by the first matching table rule. -/
theorem classifier_first_match_witness :
    handleStderrLine "ab" = none ∧
    handleStderrLine "[뉴스] 수집 완료"
      = classifyByTable (stripTimestamp (jsTrim "[뉴스] 수집 완료")) :=
  ⟨(classifier_first_match "ab").1 (Or.inr (by decide)),
   (classifier_first_match "[뉴스] 수집 완료").2.1 (by decide)⟩

theorem supStep_preserves_resolution (parse : String → Option α) (stdout : String)
    (st : SupState α) (e : SupEvent) (v : WorkerRes α) (h : st.resolution = some v) :
    (supStep parse stdout st e).resolution = some v := by
  cases e with
  | firstTimeout =>
      simp only [supStep]
      split
      · exact h
      · split
        · simp [resolveOnce, h]
        · exact h
  | closeEvt code =>
      simp only [supStep]
      split
      · exact h
      · simp [resolveOnce, h]
  | errorEvt msg => simp [supStep, resolveOnce, h]
  | secondTimeout => simp [supStep, resolveOnce, h]

theorem runSup_preserves_resolution (parse : String → Option α) (stdout : String) :
    ∀ (events : List SupEvent) (st : SupState α) (v : WorkerRes α),
      st.resolution = some v → (runSup parse stdout events st).resolution = some v := by
  intro events
  induction events with
  | nil => intro st v h; exact h
  | cons e rest ih =>
      intro st v h
      exact ih _ _ (supStep_preserves_resolution parse stdout st e v h)

theorem supStep_kills_mono (parse : String → Option α) (stdout : String)
    (st : SupState α) (e : SupEvent) (k : String) (h : k ∈ st.kills) :
    k ∈ (supStep parse stdout st e).kills := by
  cases e with
  | firstTimeout =>
      simp only [supStep]
      split
      · exact h
      · split
        · exact List.mem_append_left _ h
        · exact h
  | closeEvt code =>
      simp only [supStep]
      split
      · exact h
      · exact h
  | errorEvt msg => exact h
  | secondTimeout => exact List.mem_append_left _ h

theorem runSup_kills_mono (parse : String → Option α) (stdout : String) :
    ∀ (events : List SupEvent) (st : SupState α) (k : String),
      k ∈ st.kills → k ∈ (runSup parse stdout events st).kills := by
  intro events
  induction events with
  | nil => intro st k h; exact h
  | cons e rest ih =>
      intro st k h
      exact ih _ _ (supStep_kills_mono parse stdout st e k h)

theorem statusUpdates_append (a b : List Effect) :
    statusUpdates (a ++ b) = statusUpdates a ++ statusUpdates b := by
  unfold statusUpdates
  exact List.filterMap_append _ _ _

theorem statusUpdates_map_progress (l : List ProgEvt) :
    statusUpdates (l.map Effect.progress) = [] := by
  induction l with
  | nil => rfl
  | cons e rest ih =>
      have hcons : statusUpdates (Effect.progress e :: rest.map Effect.progress)
          = statusUpdates (rest.map Effect.progress) := by
        simp [statusUpdates, List.filterMap_cons]
      rw [List.map_cons, hcons, ih]

theorem statusUpdates_handler_ok {α : Type} (pyEvents : List ProgEvt) (p : Option α) :
    statusUpdates (postAnalysisHandler validBody pyEvents (WorkerRes.ok p))
      = [("processing", false), ("completed", true)] := by
  have hstock : ("삼성전자" = "") = False := by simp
  have hdb : daysBackInvalid (some "7") = false := by decide
  simp [postAnalysisHandler, validBody, hstock, hdb, runJavaScriptAnalysisEvents,
    collectAndAnalyzeStockEvents, statusUpdates, List.filterMap_cons,
    List.filterMap_append, List.filterMap_map, Function.comp]

theorem statusUpdates_handler_err {α : Type} (pyEvents : List ProgEvt)
    (msg : String) (b : Bool) :
    statusUpdates (postAnalysisHandler validBody pyEvents
        (WorkerRes.err msg b : WorkerRes α))
      = [("processing", false), ("failed", false)] := by
  have hstock : ("삼성전자" = "") = False := by simp
  have hdb : daysBackInvalid (some "7") = false := by decide
  simp [postAnalysisHandler, validBody, hstock, hdb, runJavaScriptAnalysisEvents,
    collectAndAnalyzeStockEvents, statusUpdates, List.filterMap_cons,
    List.filterMap_append, List.filterMap_map, Function.comp]

/-- C3: the supervisor promise settles exactly once — once a resolution
exists no later callback changes it; a first timeout firing before the
close or error callbacks sends SIGTERM and resolves as the Timeout failure
whatever happens afterwards; and the coordinator turns that failure into
the job status `failed`. -/
theorem runPythonAnalyzer_timeout_race (parse : String → Option Nat) (stdout : String) :
    (∀ (events : List SupEvent) (st : SupState Nat) (v : WorkerRes Nat),
        st.resolution = some v →
        (runSup parse stdout events st).resolution = some v) ∧
    (∀ events : List SupEvent,
        (runSup parse stdout (SupEvent.firstTimeout :: events) initSup).resolution
          = some (WorkerRes.err timeoutMsg true) ∧
        "SIGTERM" ∈ (runSup parse stdout (SupEvent.firstTimeout :: events) initSup).kills) ∧
    (∀ pyEvents : List ProgEvt,
        statusUpdates (postAnalysisHandler validBody pyEvents
            (WorkerRes.err timeoutMsg true : WorkerRes Nat))
          = [("processing", false), ("failed", false)]) := by
  refine ⟨runSup_preserves_resolution parse stdout, ?_, fun pyEvents =>
    statusUpdates_handler_err pyEvents timeoutMsg true⟩
  intro events
  have hstep : supStep parse stdout initSup SupEvent.firstTimeout
      = ⟨true, false, some (WorkerRes.err timeoutMsg true), ["SIGTERM"], []⟩ := by
    simp [supStep, initSup, resolveOnce]
  constructor
  · show (runSup parse stdout events (supStep parse stdout initSup SupEvent.firstTimeout)).resolution
      = some (WorkerRes.err timeoutMsg true)
    rw [hstep]
    exact runSup_preserves_resolution parse stdout events _ _ rfl
  · show "SIGTERM" ∈ (runSup parse stdout events
      (supStep parse stdout initSup SupEvent.firstTimeout)).kills
    rw [hstep]
    exact runSup_kills_mono parse stdout events _ _ (by simp)

/-- Witness for C3: a close callback arriving after the timeout resolution
does not change the resolved Timeout failure. -/
theorem runPythonAnalyzer_timeout_race_witness :
    (runSup (fun _ => (none : Option Nat)) ""
        [SupEvent.firstTimeout, SupEvent.closeEvt 0] initSup).resolution
      = some (WorkerRes.err timeoutMsg true) ∧
    "SIGTERM" ∈ (runSup (fun _ => (none : Option Nat)) ""
        [SupEvent.firstTimeout, SupEvent.closeEvt 0] initSup).kills :=
  (runPythonAnalyzer_timeout_race (fun _ => none) "").2.1 [SupEvent.closeEvt 0]

theorem applyStatusEffects_statusUpdates (trace : List Effect) :
    ∀ j : JobRecord,
      applyStatusEffects j trace
        = (statusUpdates trace).foldl (fun j sb => updateAnalysisStatus j sb.1 sb.2) j := by
  induction trace with
  | nil => intro j; rfl
  | cons e rest ih =>
      intro j
      cases e with
      | dbStatus s b =>
          have h1 : applyStatusEffects j (Effect.dbStatus s b :: rest)
              = applyStatusEffects (updateAnalysisStatus j s b) rest := rfl
          have h2 : statusUpdates (Effect.dbStatus s b :: rest)
              = (s, b) :: statusUpdates rest := by
            simp [statusUpdates, List.filterMap_cons]
          rw [h1, h2, ih, List.foldl_cons]
      | progress p =>
          have h2 : statusUpdates (Effect.progress p :: rest) = statusUpdates rest := by
            simp [statusUpdates, List.filterMap_cons]
          rw [show applyStatusEffects j (Effect.progress p :: rest)
              = applyStatusEffects j rest from rfl, h2, ih]
      | dbAddLog lv c =>
          have h2 : statusUpdates (Effect.dbAddLog lv c :: rest) = statusUpdates rest := by
            simp [statusUpdates, List.filterMap_cons]
          rw [show applyStatusEffects j (Effect.dbAddLog lv c :: rest)
              = applyStatusEffects j rest from rfl, h2, ih]
      | dbSave =>
          have h2 : statusUpdates (Effect.dbSave :: rest) = statusUpdates rest := by
            simp [statusUpdates, List.filterMap_cons]
          rw [show applyStatusEffects j (Effect.dbSave :: rest)
              = applyStatusEffects j rest from rfl, h2, ih]
      | dbCreate =>
          have h2 : statusUpdates (Effect.dbCreate :: rest) = statusUpdates rest := by
            simp [statusUpdates, List.filterMap_cons]
          rw [show applyStatusEffects j (Effect.dbCreate :: rest)
              = applyStatusEffects j rest from rfl, h2, ih]
      | respond c =>
          have h2 : statusUpdates (Effect.respond c :: rest) = statusUpdates rest := by
            simp [statusUpdates, List.filterMap_cons]
          rw [show applyStatusEffects j (Effect.respond c :: rest)
              = applyStatusEffects j rest from rfl, h2, ih]

/-- C6 counterexample: in the timeout run the job ends with status
`failed` and yet `completed_at` is not set, because the failure branch of
the POST handler calls `updateAnalysisStatus(requestId, 'failed')` without
a date argument — contradicting "completedAt is set iff status is
completed or failed". -/
theorem failed_job_lacks_completedAt :
    (applyStatusEffects freshJobRecord timeoutRunTrace).status = "failed" ∧
    (applyStatusEffects freshJobRecord timeoutRunTrace).completedAt = false := by
  refine ⟨?_, ?_⟩ <;> decide

/-- C6 amended: per submission run the status sequence is strictly
monotone along pending → processing → completed/failed, and `completed_at`
is set iff the final status is `completed` (a failed job does not receive
it). -/
theorem job_status_monotone_completedAt (pyEvents : List ProgEvt) (res : WorkerRes Nat) :
    List.Chain' (fun a b => statusRank a < statusRank b)
      ("pending" :: (statusUpdates (postAnalysisHandler validBody pyEvents res)).map Prod.fst) ∧
    ((applyStatusEffects freshJobRecord (postAnalysisHandler validBody pyEvents res)).completedAt
        = true
      ↔ (applyStatusEffects freshJobRecord (postAnalysisHandler validBody pyEvents res)).status
        = "completed") := by
  rw [applyStatusEffects_statusUpdates]
  cases res with
  | ok p =>
      rw [statusUpdates_handler_ok pyEvents p]
      exact ⟨by simp [List.chain'_cons, statusRank], by decide⟩
  | err msg b =>
      rw [statusUpdates_handler_err pyEvents msg b]
      exact ⟨by simp [List.chain'_cons, statusRank], by decide⟩

/-- C4 counterexample: a worker that exits 0 with no parseable payload
line resolves as success with the default data, and the job's final status
is `completed`, not `failed` — there is no NoResultPayload failure. -/
theorem no_payload_job_completes :
    noJsonSup.resolution = some (WorkerRes.ok none) ∧
    (applyStatusEffects freshJobRecord noJsonRunTrace).status = "completed" ∧
    statusUpdates noJsonRunTrace = [("processing", false), ("completed", true)] := by
  refine ⟨?_, ?_, ?_⟩ <;> decide

/-- C4 amended: on exit code 0 with no parseable payload line the
supervisor resolves successfully with the no-JSON default payload, and the
coordinator marks the job `completed`. -/
theorem no_payload_resolves_ok_default (parse : String → Option Nat) (stdout : String)
    (events : List SupEvent) (pyEvents : List ProgEvt)
    (hnone : extractJsonResult parse stdout = none) :
    (runSup parse stdout (SupEvent.closeEvt 0 :: events) initSup).resolution
      = some (WorkerRes.ok none) ∧
    statusUpdates (postAnalysisHandler validBody pyEvents (WorkerRes.ok (none : Option Nat)))
      = [("processing", false), ("completed", true)] := by
  constructor
  · have hstep : supStep parse stdout initSup (SupEvent.closeEvt 0)
        = ⟨true, true, some (WorkerRes.ok none), [], closeSuccessEvents false⟩ := by
      simp [supStep, initSup, resolveOnce, closeResolution, hnone]
    show (runSup parse stdout events
        (supStep parse stdout initSup (SupEvent.closeEvt 0))).resolution = _
    rw [hstep]
    exact runSup_preserves_resolution parse stdout events _ _ rfl
  · exact statusUpdates_handler_ok pyEvents none

/-- Witness for C4's amended statement at a concrete no-payload run. -/
theorem no_payload_resolves_ok_default_witness :
    (runSup (fun _ => (none : Option Nat)) "분석 완료 보고"
        [SupEvent.closeEvt 0] initSup).resolution
      = some (WorkerRes.ok none) ∧
    statusUpdates (postAnalysisHandler validBody [] (WorkerRes.ok (none : Option Nat)))
      = [("processing", false), ("completed", true)] :=
  no_payload_resolves_ok_default (fun _ => none) "분석 완료 보고" [] [] (by decide)

/-- C2 counterexample: in the successful run the terminal complete/success
progress event is emitted (by the close handler of the worker supervisor)
strictly before the durable save of the result — an observer reacting to
it can read the store before the write lands. -/
theorem done_success_before_save :
    Effect.progress doneSuccessEvt ∈ successRunTrace ∧
    Effect.dbSave ∈ successRunTrace ∧
    successRunTrace.indexOf (Effect.progress doneSuccessEvt)
      < successRunTrace.indexOf Effect.dbSave := by
  refine ⟨?_, ?_, ?_⟩ <;> decide

theorem postAnalysisHandler_ok_eq {α : Type} (pyEvents : List ProgEvt) (p : Option α) :
    postAnalysisHandler validBody pyEvents (WorkerRes.ok p)
      = Effect.dbCreate ::
        Effect.progress ⟨"init", "분석 요청 초기화", "success",
          "삼성전자" ++ " 분석 요청이 성공적으로 초기화되었습니다"⟩ ::
        Effect.dbAddLog "INFO" "API" ::
        Effect.dbStatus "processing" false ::
        Effect.progress ⟨"processing", "분석 처리 시작", "success",
          "분석 엔진 초기화가 완료되었습니다"⟩ ::
        ((runJavaScriptAnalysisEvents pyEvents (WorkerRes.ok p)).1.map Effect.progress
          ++ [Effect.progress ⟨"save", "결과 저장", "loading",
                "분석 결과를 데이터베이스에 저장하고 있습니다"⟩,
              Effect.dbSave,
              Effect.progress ⟨"save", "결과 저장", "success",
                "분석 결과가 성공적으로 저장되었습니다"⟩,
              Effect.dbStatus "completed" true,
              Effect.progress ⟨"complete", "분석 완료", "success",
                "모든 분석이 성공적으로 완료되었습니다"⟩,
              Effect.dbAddLog "INFO" "API",
              Effect.respond 200]) := by
  have hdb : daysBackInvalid (some "7") = false := by decide
  simp [postAnalysisHandler, validBody, hdb, runJavaScriptAnalysisEvents,
    collectAndAnalyzeStockEvents]

/-- C2 amended: in every successful run the job status becomes `completed`
only after the durable save, but the terminal complete/success progress
event has already been emitted before the save (inside the close handler),
so an observer reacting to it races the write. -/
theorem save_ordering_success_run (stderrLines : List String) (payload : Option Nat)
    (hasJson : Bool) :
    ∃ A B,
      postAnalysisHandler validBody
          (runPythonAnalyzerEvents stderrLines (closeSuccessEvents hasJson))
          (WorkerRes.ok payload)
        = A ++ Effect.dbSave :: B ∧
      Effect.dbSave ∉ A ∧
      (∃ m, Effect.progress ⟨"complete", "분석 완료", "success", m⟩ ∈ A) ∧
      (∀ b : Bool, Effect.dbStatus "completed" b ∉ A) ∧
      Effect.dbStatus "completed" true ∈ B := by
  refine ⟨Effect.dbCreate ::
      Effect.progress ⟨"init", "분석 요청 초기화", "success",
        "삼성전자" ++ " 분석 요청이 성공적으로 초기화되었습니다"⟩ ::
      Effect.dbAddLog "INFO" "API" ::
      Effect.dbStatus "processing" false ::
      Effect.progress ⟨"processing", "분석 처리 시작", "success",
        "분석 엔진 초기화가 완료되었습니다"⟩ ::
      ((runJavaScriptAnalysisEvents
          (runPythonAnalyzerEvents stderrLines (closeSuccessEvents hasJson))
          (WorkerRes.ok payload)).1.map Effect.progress
        ++ [Effect.progress ⟨"save", "결과 저장", "loading",
              "분석 결과를 데이터베이스에 저장하고 있습니다"⟩]),
    [Effect.progress ⟨"save", "결과 저장", "success", "분석 결과가 성공적으로 저장되었습니다"⟩,
     Effect.dbStatus "completed" true,
     Effect.progress ⟨"complete", "분석 완료", "success", "모든 분석이 성공적으로 완료되었습니다"⟩,
     Effect.dbAddLog "INFO" "API",
     Effect.respond 200], ?_, ?_, ?_, ?_, ?_⟩
  · rw [postAnalysisHandler_ok_eq]
    simp
  · simp [List.mem_cons, List.mem_append, List.mem_map]
  · refine ⟨if hasJson then "모든 분석이 성공적으로 완료되었습니다"
      else "분석이 완료되었습니다 (기본 결과)", ?_⟩
    have hin : (⟨"complete", "분석 완료", "success",
        if hasJson then "모든 분석이 성공적으로 완료되었습니다"
        else "분석이 완료되었습니다 (기본 결과)"⟩ : ProgEvt)
        ∈ closeSuccessEvents hasJson := by
      cases hasJson <;> simp [closeSuccessEvents]
    have hpy : (⟨"complete", "분석 완료", "success",
        if hasJson then "모든 분석이 성공적으로 완료되었습니다"
        else "분석이 완료되었습니다 (기본 결과)"⟩ : ProgEvt)
        ∈ runPythonAnalyzerEvents stderrLines (closeSuccessEvents hasJson) :=
      List.mem_cons_of_mem _ (List.mem_append_right _ hin)
    have hjs : (⟨"complete", "분석 완료", "success",
        if hasJson then "모든 분석이 성공적으로 완료되었습니다"
        else "분석이 완료되었습니다 (기본 결과)"⟩ : ProgEvt)
        ∈ (runJavaScriptAnalysisEvents
            (runPythonAnalyzerEvents stderrLines (closeSuccessEvents hasJson))
            (WorkerRes.ok payload)).1 := by
      unfold runJavaScriptAnalysisEvents collectAndAnalyzeStockEvents
      exact List.mem_cons_of_mem _
        (List.mem_append_left _ (List.mem_append_left _ hpy))
    refine List.mem_cons_of_mem _ (List.mem_cons_of_mem _ (List.mem_cons_of_mem _
      (List.mem_cons_of_mem _ (List.mem_cons_of_mem _ (List.mem_append_left _
        (List.mem_map_of_mem _ hjs))))))
  · intro b
    simp [List.mem_cons, List.mem_append, List.mem_map]
  · simp

/-- C1 counterexample: an event broadcast while the room is empty is not
delivered to an observer that joins afterwards — the join yields only the
`joined-analysis` acknowledgment, no history snapshot. -/
theorem late_joiner_misses_event :
    (runIo lostEventTrace initIo).delivered = [("sockA", SockMsg.joinedAck "abc123")] ∧
    ("sockA", SockMsg.progressMsg "abc123" "collection-done")
      ∉ (runIo lostEventTrace initIo).delivered := by
  refine ⟨?_, ?_⟩ <;> decide

theorem mem_delivered_ioStep (st : IoState) (a : SockAction)
    (s0 rid0 p0 : String) :
    (s0, SockMsg.progressMsg rid0 p0) ∈ (ioStep st a).delivered
      ↔ (s0, SockMsg.progressMsg rid0 p0) ∈ st.delivered
        ∨ (a = SockAction.emitProgress rid0 p0
            ∧ s0 ∈ roomMembers st (analysisRoom rid0)) := by
  cases a with
  | joinAnalysis s rid =>
      simp only [ioStep]
      split
      · simp
      · simp
  | leaveAnalysis s rid =>
      simp only [ioStep]
      split
      · simp
      · simp
  | emitProgress rid pl =>
      simp only [ioStep]
      constructor
      · intro h
        rcases List.mem_append.1 h with h | h
        · exact Or.inl h
        · rcases List.mem_map.1 h with ⟨s1, hs1, heq⟩
          obtain ⟨hfst, hsnd⟩ := Prod.mk.injEq _ _ _ _ ▸ heq
          injection hsnd with hrid hpl
          subst hrid; subst hpl; subst hfst
          exact Or.inr ⟨rfl, hs1⟩
      · rintro (h | ⟨heq, hmem⟩)
        · exact List.mem_append_left _ h
        · injection heq with hrid hpl
          subst hrid; subst hpl
          exact List.mem_append_right _ (List.mem_map_of_mem _ hmem)

theorem mem_delivered_runIo (s0 rid0 p0 : String) :
    ∀ (actions : List SockAction) (st : IoState),
      (s0, SockMsg.progressMsg rid0 p0) ∈ (runIo actions st).delivered
        ↔ (s0, SockMsg.progressMsg rid0 p0) ∈ st.delivered
          ∨ ∃ t1 t2, actions = t1 ++ SockAction.emitProgress rid0 p0 :: t2
              ∧ s0 ∈ roomMembers (runIo t1 st) (analysisRoom rid0) := by
  intro actions
  induction actions with
  | nil =>
      intro st
      constructor
      · intro h; exact Or.inl h
      · rintro (h | ⟨t1, t2, heq, hmem⟩)
        · exact h
        · exact absurd heq (by simp)
  | cons a rest ih =>
      intro st
      rw [show runIo (a :: rest) st = runIo rest (ioStep st a) from rfl,
        ih (ioStep st a)]
      constructor
      · rintro (h | ⟨t1, t2, heq, hmem⟩)
        · rcases (mem_delivered_ioStep st a s0 rid0 p0).1 h with h | ⟨ha, hm⟩
          · exact Or.inl h
          · exact Or.inr ⟨[], rest, by rw [ha]; rfl, hm⟩
        · exact Or.inr ⟨a :: t1, t2, by rw [heq]; rfl, hmem⟩
      · rintro (h | ⟨t1, t2, heq, hmem⟩)
        · exact Or.inl ((mem_delivered_ioStep st a s0 rid0 p0).2 (Or.inl h))
        · cases t1 with
          | nil =>
              rw [List.nil_append] at heq
              injection heq with h1 h2
              exact Or.inl ((mem_delivered_ioStep st a s0 rid0 p0).2
                (Or.inr ⟨h1, hmem⟩))
          | cons x t1 =>
              rw [List.cons_append] at heq
              injection heq with h1 h2
              subst h1
              exact Or.inr ⟨t1, t2, h2, hmem⟩

/-- C1 amended: a progress payload is delivered to an observer exactly
when the broadcast happened while the observer was a member of the job's
room; joining only acknowledges and replays nothing, so events broadcast
while no observer was joined (and any events before a late join) are never
delivered to that observer. -/
theorem progress_delivered_iff_member_at_emit (actions : List SockAction)
    (sock requestId payload : String) :
    (sock, SockMsg.progressMsg requestId payload) ∈ (runIo actions initIo).delivered
      ↔ ∃ t1 t2, actions = t1 ++ SockAction.emitProgress requestId payload :: t2
          ∧ sock ∈ roomMembers (runIo t1 initIo) (analysisRoom requestId) := by
  rw [mem_delivered_runIo sock requestId payload actions initIo]
  simp [initIo]

end MarketNews
